import Mathlib

/-!
Verification of the E3FP fingerprint generation pipeline
(`fingerprint/generate.py`): shallow embedding of the per-molecule
generator `fprints_dict_from_mol` and of the batch driver's input
resolution from `run`, together with theorems settling the claims of
the natural-language specification.

Modelling conventions.
The external collaborators (filesystem, fingerprint store, fingerprinting
engine) are embedded as oracle functions collected in `Env` / `FileSys`.
Machine integers `max_iters` and `first` are `Int` (Python ints are
unbounded).  `xrange(max_iters + 1)` is `List.range (max_iters + 1).toNat`,
which is empty when `max_iters = -1` exactly as in Python.
The generator's observable behaviour (returned dict, directories touched,
files written, engine invocations, which exceptional branch was taken) is
collected in a `RunResult` record; the Python return value is the
`result` field, the other fields are side effects and path markers.
Python detail embedded faithfully: when the conformer loop runs zero
iterations (empty conformer list), the post-loop log statement
`"Generated %d fingerprints" % (j, name)` raises `NameError` because `j`
is unbound, which the surrounding `except Exception` turns into the
fingerprinting-failure return `{}`.
-/

set_option autoImplicit false

namespace E3FP

/-- A fingerprint as the pipeline sees it: an opaque payload produced by
the engine (`get_fingerprint_at_level`) plus the `name` attribute the
pipeline assigns (`fprint.name = "%s_%d" % (name, j)`). -/
structure Fprint where
  data : Nat
  name : String
deriving DecidableEq

/-- A molecule: `_Name` property plus the ordered conformer sequence
(`mol.GetConformers()`); conformers are opaque payloads. -/
structure Mol where
  name : String
  confs : List Nat
deriving DecidableEq

/-- Keyword arguments of `fprints_dict_from_mol` that influence control
flow or outputs.  `shellRadius` is a float forwarded verbatim to the
engine and is not modelled; `counts`, `stereo`, `storeIdentifiersMap`,
`includeDisconnected` are likewise only forwarded to the engine
constructor. -/
structure Config where
  maxIters : Int
  first : Int
  outDirBase : String
  outExt : String
  overwrite : Bool
  save : Bool
  counts : Bool
  stereo : Bool
  storeIdentifiersMap : Bool
  includeDisconnected : Bool
deriving DecidableEq

/-- Oracles for the external collaborators: `os.path.isfile`, whether
`fp.savez` on a path succeeds, whether `fingerprinter.run(conf)` raises,
and the payload `get_fingerprint_at_level(i)` yields after running a
conformer. -/
structure Env where
  isFile : String → Bool
  saveOk : String → Bool
  engineRunOk : Nat → Bool
  engineFp : Nat → Nat → Nat

/-- `"%s%d" % (out_dir_base, i)`. -/
def outputDir (base : String) (i : Nat) : String :=
  base ++ toString i

/-- `"%s/%s%s" % (dir_name, name, out_ext)`. -/
def outputPath (base : String) (i : Nat) (name ext : String) : String :=
  outputDir base i ++ "/" ++ name ++ ext

/-- `xrange(max_iters + 1)`: empty for `max_iters = -1`. -/
def levelList (maxIters : Int) : List Nat :=
  List.range (maxIters + 1).toNat

/-- The `filenames` list built during the cache-existence check. -/
def filenamesFor (cfg : Config) (name : String) : List String :=
  (levelList cfg.maxIters).map (fun i => outputPath cfg.outDirBase i name cfg.outExt)

/-- The early-return condition `save` ∧ `all_files_exist` ∧ `not overwrite`. -/
def cacheSkip (env : Env) (mol : Mol) (cfg : Config) : Bool :=
  cfg.save && (filenamesFor cfg mol.name).all env.isFile && !cfg.overwrite

/-- Number of conformers the loop fingerprints: `enumerate` with
`if j == first: break` processes all `c` conformers when `first < 0`,
otherwise `min c first`. -/
def numProcessed (c : Nat) (first : Int) : Nat :=
  if first < 0 then c else min c first.toNat

/-- Index of the first conformer (among the processed prefix) on which
`fingerprinter.run(conf)` raises, if any. -/
def failIdx (env : Env) (mol : Mol) (n : Nat) : Option Nat :=
  (List.range n).find? (fun j => !(env.engineRunOk (mol.confs.getD j 0)))

/-- The per-level list accumulated by `setdefault(i, []).append(fprint)`:
one fingerprint per processed conformer `j`, named `"%s_%d" % (name, j)`. -/
def levelFprints (env : Env) (mol : Mol) (i n : Nat) : List Fprint :=
  (List.range n).map
    (fun j => ⟨env.engineFp (mol.confs.getD j 0) i, mol.name ++ "_" ++ toString j⟩)

/-- The `fprints_dict` after a failure-free loop over `n` conformers,
as an association list in increasing key order (keys are inserted in
order `0, 1, …` during the first conformer, and the save phase iterates
`sorted(fprints_dict.items())`). -/
def fprintsDictOf (env : Env) (mol : Mol) (cfg : Config) (n : Nat) :
    List (Nat × List Fprint) :=
  if n = 0 then []
  else (levelList cfg.maxIters).map (fun i => (i, levelFprints env mol i n))

/-- The save phase `for i, fprints in sorted(fprints_dict.items()):
fp.savez(filenames[i], *fprints)`: writes in order, stops at the first
failing write; returns the successful writes and whether a write failed. -/
def writeLoop (env : Env) (filenames : List String) :
    List (Nat × List Fprint) → List (String × List Fprint) × Bool
  | [] => ([], false)
  | (i, fps) :: rest =>
    let path := filenames.getD i ""
    if env.saveOk path then
      let r := writeLoop env filenames rest
      ((path, fps) :: r.1, r.2)
    else ([], true)

/-- Observable outcome of one `fprints_dict_from_mol` call.  `result` is
the Python return value (`{}` is `[]`); the rest records side effects and
which branch returned. -/
structure RunResult where
  result : List (Nat × List Fprint)
  skipped : Bool
  engineConstructed : Bool
  engineRuns : Nat
  dirsCreated : List String
  filesWritten : List (String × List Fprint)
  fpFailure : Bool
  saveFailure : Bool
deriving DecidableEq

/-- Shallow embedding of `fprints_dict_from_mol` (generate.py lines
68–121).  Branches in order: cache-skip early return; conformer loop with
engine failure (`except Exception` → `return {}`); `NameError` on the
post-loop log when the loop ran zero iterations (empty conformer list);
save loop with failure (`except Exception` → `return {}`); normal return. -/
def fprintsDictFromMol (env : Env) (mol : Mol) (cfg : Config) : RunResult :=
  let dirs := if cfg.save then (levelList cfg.maxIters).map (outputDir cfg.outDirBase) else []
  if cacheSkip env mol cfg then
    { result := [], skipped := true, engineConstructed := false, engineRuns := 0,
      dirsCreated := dirs, filesWritten := [], fpFailure := false, saveFailure := false }
  else
    let c := mol.confs.length
    let n := numProcessed c cfg.first
    match failIdx env mol n with
    | some k =>
      { result := [], skipped := false, engineConstructed := true, engineRuns := k + 1,
        dirsCreated := dirs, filesWritten := [], fpFailure := true, saveFailure := false }
    | none =>
      if c = 0 then
        { result := [], skipped := false, engineConstructed := true, engineRuns := n,
          dirsCreated := dirs, filesWritten := [], fpFailure := true, saveFailure := false }
      else
        let dict := fprintsDictOf env mol cfg n
        if cfg.save then
          let w := writeLoop env (filenamesFor cfg mol.name) dict
          if w.2 then
            { result := [], skipped := false, engineConstructed := true, engineRuns := n,
              dirsCreated := dirs, filesWritten := w.1, fpFailure := false, saveFailure := true }
          else
            { result := dict, skipped := false, engineConstructed := true, engineRuns := n,
              dirsCreated := dirs, filesWritten := w.1, fpFailure := false, saveFailure := false }
        else
          { result := dict, skipped := false, engineConstructed := true, engineRuns := n,
            dirsCreated := dirs, filesWritten := [], fpFailure := false, saveFailure := false }

/-- Filesystem oracle for the batch driver: `os.path.isdir` and the raw
entry names of a directory. -/
structure FileSys where
  isDir : String → Bool
  entries : String → List String

/-- A directory entry is hidden when its name begins with a period;
`glob`'s `*` pattern does not match such names. -/
def hiddenEntry (e : String) : Bool :=
  match e.data with
  | [] => false
  | c :: _ => c = '.'

/-- `glob("%s/*" % dir)`: the non-hidden entries of the directory,
prefixed with the directory path (non-recursive). -/
def globStar (fs : FileSys) (d : String) : List String :=
  ((fs.entries d).filter (fun e => !(hiddenEntry e))).map (fun e => d ++ "/" ++ e)

/-- Input resolution of `run` (generate.py lines 175–177):
`if len(sdf_files) == 1 and os.path.isdir(sdf_files[0]): sdf_files =
glob("%s/*" % sdf_files[0])`. -/
def resolveInputs (fs : FileSys) (files : List String) : List String :=
  match files with
  | [d] => if fs.isDir d then globStar fs d else files
  | _ => files

/-- Writes expected for a failure-free save phase over `n` processed
conformers: for each level, in increasing order, the level's path paired
with the level's fingerprint list. -/
def expectedWrites (env : Env) (mol : Mol) (cfg : Config) (n : Nat) :
    List (String × List Fprint) :=
  (levelList cfg.maxIters).map
    (fun i => (outputPath cfg.outDirBase i mol.name cfg.outExt, levelFprints env mol i n))

theorem numProcessed_le (c : Nat) (first : Int) : numProcessed c first ≤ c := by
  unfold numProcessed
  split
  · exact Nat.le_refl c
  · exact Nat.min_le_left c first.toNat

theorem numProcessed_pos (c : Nat) (first : Int) (hc : c ≠ 0) (hf : first ≠ 0) :
    1 ≤ numProcessed c first := by
  unfold numProcessed
  split
  · omega
  · rename_i h
    rw [Nat.le_min]
    omega

theorem numProcessed_zero_left (first : Int) : numProcessed 0 first = 0 := by
  unfold numProcessed
  split <;> simp

theorem failIdx_eq_none (env : Env) (mol : Mol) (n : Nat)
    (hn : n ≤ mol.confs.length)
    (hok : ∀ conf ∈ mol.confs, env.engineRunOk conf = true) :
    failIdx env mol n = none := by
  unfold failIdx
  rw [List.find?_eq_none]
  intro j hj
  have hj' : j < mol.confs.length := lt_of_lt_of_le (List.mem_range.mp hj) hn
  rw [List.getD_eq_getElem _ _ hj']
  simp [hok _ (List.getElem_mem hj')]

theorem writeLoop_eq (env : Env) (fns : List String)
    (items : List (Nat × List Fprint)) :
    writeLoop env fns items =
      ((items.map (fun it => (fns.getD it.1 "", it.2))).takeWhile
          (fun w => env.saveOk w.1),
       !(items.map (fun it => (fns.getD it.1 "", it.2))).all
          (fun w => env.saveOk w.1)) := by
  induction items with
  | nil => rfl
  | cons hd tl ih =>
    obtain ⟨i, fps⟩ := hd
    simp only [writeLoop, List.map_cons, List.takeWhile_cons, List.all_cons, ih]
    by_cases hs : env.saveOk (fns.getD i "") = true
    · rw [if_pos hs, if_pos hs, hs]
      simp
    · rw [if_neg hs, if_neg hs]
      have hs' : env.saveOk (fns.getD i "") = false := by simpa using hs
      rw [hs']
      simp

theorem writeLoop_all_ok (env : Env) (fns : List String)
    (hsv : ∀ p, env.saveOk p = true) (items : List (Nat × List Fprint)) :
    writeLoop env fns items
      = (items.map (fun it => (fns.getD it.1 "", it.2)), false) := by
  induction items with
  | nil => rfl
  | cons hd tl ih =>
    obtain ⟨i, fps⟩ := hd
    simp [writeLoop, hsv, ih]

theorem filenamesFor_getD (cfg : Config) (name : String) (i : Nat)
    (hi : i ∈ levelList cfg.maxIters) :
    (filenamesFor cfg name).getD i ""
      = outputPath cfg.outDirBase i name cfg.outExt := by
  have hi' : i < (levelList cfg.maxIters).length := by
    unfold levelList at hi ⊢
    rw [List.length_range]
    exact List.mem_range.mp hi
  have hlen : i < (filenamesFor cfg name).length := by
    unfold filenamesFor
    rw [List.length_map]
    exact hi'
  rw [List.getD_eq_getElem _ _ hlen]
  unfold filenamesFor
  rw [List.getElem_map]
  unfold levelList
  rw [List.getElem_range]

theorem dict_map_expected (env : Env) (mol : Mol) (cfg : Config) (n : Nat)
    (hn : n ≠ 0) :
    (fprintsDictOf env mol cfg n).map
        (fun it => ((filenamesFor cfg mol.name).getD it.1 "", it.2))
      = expectedWrites env mol cfg n := by
  unfold fprintsDictOf expectedWrites
  rw [if_neg hn, List.map_map]
  refine List.map_congr_left (fun i hi => ?_)
  simp only [Function.comp_apply]
  rw [filenamesFor_getD cfg mol.name i hi]

theorem fprintsDictOf_mem (env : Env) (mol : Mol) (cfg : Config) (n : Nat)
    (i : Nat) (fps : List Fprint)
    (h : (i, fps) ∈ fprintsDictOf env mol cfg n) :
    fps = levelFprints env mol i n := by
  unfold fprintsDictOf at h
  split at h
  · exact absurd h (List.not_mem_nil _)
  · obtain ⟨a, _, he⟩ := List.mem_map.mp h
    rw [Prod.mk.injEq] at he
    obtain ⟨rfl, he2⟩ := he
    exact he2.symm

theorem dirsCreated_eq (env : Env) (mol : Mol) (cfg : Config) :
    (fprintsDictFromMol env mol cfg).dirsCreated
      = (if cfg.save then (levelList cfg.maxIters).map (outputDir cfg.outDirBase)
         else []) := by
  unfold fprintsDictFromMol
  dsimp only
  split
  · rfl
  · split
    · rfl
    · split
      · rfl
      · split
        · split
          · rfl
          · rfl
        · rfl

theorem skipped_eq (env : Env) (mol : Mol) (cfg : Config) :
    (fprintsDictFromMol env mol cfg).skipped = cacheSkip env mol cfg := by
  unfold fprintsDictFromMol
  dsimp only
  split
  · rename_i h
    exact h.symm
  · rename_i h
    have h' : cacheSkip env mol cfg = false := by simpa using h
    rw [h']
    split
    · rfl
    · split
      · rfl
      · split
        · split
          · rfl
          · rfl
        · rfl

theorem engineConstructed_eq (env : Env) (mol : Mol) (cfg : Config) :
    (fprintsDictFromMol env mol cfg).engineConstructed
      = !(cacheSkip env mol cfg) := by
  unfold fprintsDictFromMol
  dsimp only
  split
  · rename_i h
    rw [h]
    rfl
  · rename_i h
    have h' : cacheSkip env mol cfg = false := by simpa using h
    rw [h']
    split
    · rfl
    · split
      · rfl
      · split
        · split
          · rfl
          · rfl
        · rfl

theorem run_flags_or_empty (env : Env) (mol : Mol) (cfg : Config) :
    (fprintsDictFromMol env mol cfg).result = []
    ∨ ((fprintsDictFromMol env mol cfg).skipped = false
       ∧ (fprintsDictFromMol env mol cfg).fpFailure = false
       ∧ (fprintsDictFromMol env mol cfg).saveFailure = false) := by
  unfold fprintsDictFromMol
  dsimp only
  split
  · exact Or.inl rfl
  · split
    · exact Or.inl rfl
    · split
      · exact Or.inl rfl
      · split
        · split
          · exact Or.inl rfl
          · exact Or.inr ⟨rfl, rfl, rfl⟩
        · exact Or.inr ⟨rfl, rfl, rfl⟩

theorem result_mem_eq (env : Env) (mol : Mol) (cfg : Config) (i : Nat)
    (fps : List Fprint)
    (h : (i, fps) ∈ (fprintsDictFromMol env mol cfg).result) :
    fps = levelFprints env mol i (numProcessed mol.confs.length cfg.first) := by
  unfold fprintsDictFromMol at h
  dsimp only at h
  split at h
  · exact absurd h (List.not_mem_nil _)
  · split at h
    · exact absurd h (List.not_mem_nil _)
    · split at h
      · exact absurd h (List.not_mem_nil _)
      · split at h
        · split at h
          · exact absurd h (List.not_mem_nil _)
          · exact fprintsDictOf_mem env mol cfg _ i fps h
        · exact fprintsDictOf_mem env mol cfg _ i fps h

theorem run_save_success_eq (env : Env) (mol : Mol) (cfg : Config)
    (hns : cacheSkip env mol cfg = false) (hsave : cfg.save = true)
    (hok : ∀ conf ∈ mol.confs, env.engineRunOk conf = true)
    (hc : mol.confs.length ≠ 0) :
    fprintsDictFromMol env mol cfg =
      { result :=
          if (writeLoop env (filenamesFor cfg mol.name)
              (fprintsDictOf env mol cfg
                (numProcessed mol.confs.length cfg.first))).2
          then []
          else fprintsDictOf env mol cfg (numProcessed mol.confs.length cfg.first),
        skipped := false, engineConstructed := true,
        engineRuns := numProcessed mol.confs.length cfg.first,
        dirsCreated := (levelList cfg.maxIters).map (outputDir cfg.outDirBase),
        filesWritten := (writeLoop env (filenamesFor cfg mol.name)
            (fprintsDictOf env mol cfg
              (numProcessed mol.confs.length cfg.first))).1,
        fpFailure := false,
        saveFailure := (writeLoop env (filenamesFor cfg mol.name)
            (fprintsDictOf env mol cfg
              (numProcessed mol.confs.length cfg.first))).2 } := by
  unfold fprintsDictFromMol
  dsimp only
  rw [hns, failIdx_eq_none env mol _ (numProcessed_le _ _) hok]
  simp only [Bool.false_eq_true, if_false]
  rw [if_neg hc, hsave]
  simp only [if_true]
  by_cases hw : (writeLoop env (filenamesFor cfg mol.name)
      (fprintsDictOf env mol cfg (numProcessed mol.confs.length cfg.first))).2 = true
  · simp [hw]
  · have hw' : (writeLoop env (filenamesFor cfg mol.name)
        (fprintsDictOf env mol cfg (numProcessed mol.confs.length cfg.first))).2
          = false := by simpa using hw
    simp [hw']

theorem engineRuns_pos (env : Env) (mol : Mol) (cfg : Config)
    (hns : cacheSkip env mol cfg = false) (hc : mol.confs ≠ [])
    (hf : cfg.first ≠ 0) :
    1 ≤ (fprintsDictFromMol env mol cfg).engineRuns := by
  have hc' : mol.confs.length ≠ 0 := fun h => hc (List.length_eq_zero.mp h)
  have hn := numProcessed_pos mol.confs.length cfg.first hc' hf
  unfold fprintsDictFromMol
  dsimp only
  rw [hns]
  simp only [Bool.false_eq_true, if_false]
  split
  · exact Nat.succ_le_succ (Nat.zero_le _)
  · rw [if_neg hc']
    split
    · split
      · exact hn
      · exact hn
    · exact hn

theorem takeWhile_as_take {α : Type} (p : α → Bool) (l : List α) :
    ∃ k, l.takeWhile p = l.take k := by
  induction l with
  | nil => exact ⟨0, rfl⟩
  | cons a l ih =>
    by_cases h : p a = true
    · obtain ⟨k, hk⟩ := ih
      exact ⟨k + 1, by simp [List.takeWhile_cons, h, hk]⟩
    · exact ⟨0, by simp [List.takeWhile_cons, h]⟩

/-- Oracles for concrete runs: no file exists, every write succeeds, the
engine never fails. -/
def envNoFiles : Env := ⟨fun _ => false, fun _ => true, fun _ => true, fun c l => c * 10 + l⟩

/-- Oracles where every level file already exists. -/
def envAllFiles : Env := ⟨fun _ => true, fun _ => true, fun _ => true, fun _ _ => 0⟩

/-- Oracles where no file exists and the engine fails on every conformer. -/
def envEngineFails : Env := ⟨fun _ => false, fun _ => true, fun _ => false, fun _ _ => 0⟩

/-- Oracles where no file exists, the engine succeeds, every write fails. -/
def envSaveFails : Env := ⟨fun _ => false, fun _ => false, fun _ => true, fun _ _ => 0⟩

/-- Oracles where only the level-0 file of molecule `m` can be written. -/
def envLevel0Only : Env :=
  ⟨fun _ => false, fun p => p == "E3FP0/m.bz2", fun _ => true, fun c l => c * 10 + l⟩

def molM : Mol := ⟨"m", [3]⟩

def molM3 : Mol := ⟨"m", [3, 4, 5]⟩

def molEmpty : Mol := ⟨"m", []⟩

/-- Default-style configuration: save on, overwrite off, levels 0 and 1. -/
def cfgTwoLevels : Config := ⟨1, -1, "E3FP", ".bz2", false, true, false, false, false, true⟩

/-- Unbounded sentinel `max_iters = -1`, persistence off. -/
def cfgUnbounded : Config := ⟨-1, -1, "E3FP", ".bz2", false, false, false, false, false, true⟩

/-- Unbounded sentinel `max_iters = -1`, persistence on. -/
def cfgUnboundedSave : Config := ⟨-1, -1, "E3FP", ".bz2", false, true, false, false, false, true⟩

/-- One level, conformer cap `first = 0`, persistence on. -/
def cfgFirstZero : Config := ⟨0, 0, "E3FP", ".bz2", false, true, false, false, false, true⟩

/-- One level, persistence off. -/
def cfgNoSave : Config := ⟨0, -1, "E3FP", ".bz2", false, false, false, false, false, true⟩

/-- Two levels, conformer cap `first = 2`, persistence on. -/
def cfgFirstTwo : Config := ⟨1, 2, "E3FP", ".bz2", false, true, false, false, false, true⟩

/-- Claim C1 (code bug): with the unbounded sentinel `max_iters = -1` and a
successful engine run, the code never queries the engine for a fingerprint
at any level — `xrange(max_iters + 1)` is the empty range — so the
returned level-keyed collection is empty even for a molecule with one
conformer whose engine run succeeded; moreover with `save` enabled the
vacuous cache check (`all_files_exist` over zero files) always takes the
skip path.  This contradicts the claim and the function's own docstring
("-1 runs until termination"). -/
theorem unbounded_sentinel_returns_empty :
    molM.confs.length = 1
    ∧ cfgUnbounded.maxIters = -1
    ∧ (fprintsDictFromMol envNoFiles molM cfgUnbounded).skipped = false
    ∧ (fprintsDictFromMol envNoFiles molM cfgUnbounded).fpFailure = false
    ∧ (fprintsDictFromMol envNoFiles molM cfgUnbounded).engineRuns = 1
    ∧ (fprintsDictFromMol envNoFiles molM cfgUnbounded).result = []
    ∧ envNoFiles.isFile "E3FP0/m.bz2" = false
    ∧ (fprintsDictFromMol envNoFiles molM cfgUnboundedSave).skipped = true := by
  decide

/-- Claim C2: with persistence enabled, the generator takes the
already-complete skip path iff `overwrite` is false and every level file
in `0..=max_iters` already exists; on the skip path the engine is neither
constructed nor run, on every other path the engine is constructed, and —
for a molecule with at least one conformer and a nonzero conformer cap —
run at least once. -/
theorem cache_skip_iff (env : Env) (mol : Mol) (cfg : Config)
    (hsave : cfg.save = true) :
    ((fprintsDictFromMol env mol cfg).skipped
        = (!cfg.overwrite && (filenamesFor cfg mol.name).all env.isFile))
    ∧ ((fprintsDictFromMol env mol cfg).skipped = true →
        (fprintsDictFromMol env mol cfg).engineConstructed = false
        ∧ (fprintsDictFromMol env mol cfg).engineRuns = 0)
    ∧ ((fprintsDictFromMol env mol cfg).skipped = false →
        (fprintsDictFromMol env mol cfg).engineConstructed = true)
    ∧ ((fprintsDictFromMol env mol cfg).skipped = false → mol.confs ≠ [] →
        cfg.first ≠ 0 → 1 ≤ (fprintsDictFromMol env mol cfg).engineRuns) := by
  refine ⟨?_, ?_, ?_, ?_⟩
  · rw [skipped_eq]
    unfold cacheSkip
    rw [hsave]
    simp [Bool.true_and, Bool.and_comm]
  · intro hsk
    have h' : cacheSkip env mol cfg = true := by
      rw [← skipped_eq env mol cfg]; exact hsk
    refine ⟨by rw [engineConstructed_eq, h']; rfl, ?_⟩
    unfold fprintsDictFromMol
    dsimp only
    rw [h']
    rfl
  · intro hsk
    have h' : cacheSkip env mol cfg = false := by
      rw [← skipped_eq env mol cfg]; exact hsk
    rw [engineConstructed_eq, h']
    rfl
  · intro hsk hc hf
    have h' : cacheSkip env mol cfg = false := by
      rw [← skipped_eq env mol cfg]; exact hsk
    exact engineRuns_pos env mol cfg h' hc hf

/-- Witness for `cache_skip_iff`: with every level file present and
overwrite off, the concrete run skips. -/
theorem cache_skip_iff_witness :
    (fprintsDictFromMol envAllFiles molM cfgTwoLevels).skipped = true := by
  have h := cache_skip_iff envAllFiles molM cfgTwoLevels rfl
  rw [h.1]
  decide

/-- Claim C6 counterexample: the already-complete skip, a fingerprinting
failure, and a persistence failure all return the same value `{}` — the
cache-skip outcome is not distinguishable from either failure outcome in
the value returned to the caller. -/
theorem outcome_value_indistinguishable_cex :
    (fprintsDictFromMol envAllFiles molM cfgTwoLevels).skipped = true
    ∧ (fprintsDictFromMol envEngineFails molM cfgTwoLevels).fpFailure = true
    ∧ (fprintsDictFromMol envSaveFails molM cfgTwoLevels).saveFailure = true
    ∧ (fprintsDictFromMol envAllFiles molM cfgTwoLevels).result
        = (fprintsDictFromMol envEngineFails molM cfgTwoLevels).result
    ∧ (fprintsDictFromMol envEngineFails molM cfgTwoLevels).result
        = (fprintsDictFromMol envSaveFails molM cfgTwoLevels).result := by
  decide

/-- Claim C6 amended: the already-complete skip returns the same empty
collection as the fingerprinting-failure and persistence-failure outcomes;
the three are distinguished only in logging and side effects, never in the
value returned to the caller. -/
theorem abnormal_outcomes_return_empty (env : Env) (mol : Mol) (cfg : Config)
    (h : (fprintsDictFromMol env mol cfg).skipped = true
       ∨ (fprintsDictFromMol env mol cfg).fpFailure = true
       ∨ (fprintsDictFromMol env mol cfg).saveFailure = true) :
    (fprintsDictFromMol env mol cfg).result = [] := by
  rcases run_flags_or_empty env mol cfg with he | ⟨h1, h2, h3⟩
  · exact he
  · rcases h with h | h | h
    · rw [h1] at h
      exact absurd h Bool.false_ne_true
    · rw [h2] at h
      exact absurd h Bool.false_ne_true
    · rw [h3] at h
      exact absurd h Bool.false_ne_true

/-- Witness for `abnormal_outcomes_return_empty` at a concrete skip run. -/
theorem abnormal_outcomes_return_empty_witness :
    (fprintsDictFromMol envAllFiles molM cfgTwoLevels).result = [] :=
  abnormal_outcomes_return_empty envAllFiles molM cfgTwoLevels (Or.inl (by decide))

/-- Claim C9: with persistence enabled and `max_iters ≥ 0` the generator
touches (creates if absent) the output directory of every level in
`0..=max_iters` during the cache-existence check; the equation holds for
every oracle, hence in every outcome — skip, fingerprinting failure,
persistence failure, or success. -/
theorem dirs_touched_every_level (env : Env) (mol : Mol) (cfg : Config)
    (hsave : cfg.save = true) (hm : 0 ≤ cfg.maxIters) :
    (fprintsDictFromMol env mol cfg).dirsCreated
      = (levelList cfg.maxIters).map (outputDir cfg.outDirBase)
    ∧ ((fprintsDictFromMol env mol cfg).dirsCreated).length
        = cfg.maxIters.toNat + 1 := by
  have h := dirsCreated_eq env mol cfg
  rw [hsave] at h
  simp only [eq_self_iff_true, if_true] at h
  refine ⟨h, ?_⟩
  rw [h, List.length_map]
  unfold levelList
  rw [List.length_range]
  omega

/-- Witness for `dirs_touched_every_level`: a skip run still touches both
level directories. -/
theorem dirs_touched_every_level_witness :
    (fprintsDictFromMol envAllFiles molM cfgTwoLevels).skipped = true
    ∧ (fprintsDictFromMol envAllFiles molM cfgTwoLevels).dirsCreated
        = ["E3FP0", "E3FP1"] := by
  have h := dirs_touched_every_level envAllFiles molM cfgTwoLevels rfl (by decide)
  refine ⟨by decide, ?_⟩
  rw [h.1]
  decide

/-- Claim C10: a molecule with no conformers that does not take the
cache-skip path ends in the fingerprinting-failure branch (the post-loop
log statement raises `NameError` on the unbound loop variable `j`),
returning the empty failure value and writing no output files. -/
theorem empty_conformers_failure (env : Env) (mol : Mol) (cfg : Config)
    (hc : mol.confs = []) (hns : cacheSkip env mol cfg = false) :
    (fprintsDictFromMol env mol cfg).fpFailure = true
    ∧ (fprintsDictFromMol env mol cfg).result = []
    ∧ (fprintsDictFromMol env mol cfg).filesWritten = [] := by
  have hlen : mol.confs.length = 0 := by rw [hc]; rfl
  have hn : numProcessed mol.confs.length cfg.first = 0 := by
    rw [hlen]
    exact numProcessed_zero_left cfg.first
  have hfi : failIdx env mol (numProcessed mol.confs.length cfg.first) = none := by
    rw [hn]
    rfl
  unfold fprintsDictFromMol
  dsimp only
  rw [hns]
  simp only [Bool.false_eq_true, if_false]
  rw [hfi]
  dsimp only
  rw [if_pos hlen]
  exact ⟨rfl, rfl, rfl⟩

/-- Witness for `empty_conformers_failure` at a concrete run. -/
theorem empty_conformers_failure_witness :
    (fprintsDictFromMol envNoFiles molEmpty cfgTwoLevels).fpFailure = true
    ∧ (fprintsDictFromMol envNoFiles molEmpty cfgTwoLevels).result = [] := by
  have h := empty_conformers_failure envNoFiles molEmpty cfgTwoLevels rfl (by decide)
  exact ⟨h.1, h.2.1⟩

/-- Claim C3 counterexample: with conformer cap `first = 0` (so
`min(C, first) = 0`), a run that is otherwise successful — not skipped, no
fingerprinting failure, no persistence failure — writes zero output files
instead of the claimed `L + 1 = 1` files of zero fingerprints each. -/
theorem level_file_count_cex :
    cfgFirstZero.maxIters = 0
    ∧ cfgFirstZero.first = 0
    ∧ molM.confs.length = 1
    ∧ (fprintsDictFromMol envNoFiles molM cfgFirstZero).skipped = false
    ∧ (fprintsDictFromMol envNoFiles molM cfgFirstZero).fpFailure = false
    ∧ (fprintsDictFromMol envNoFiles molM cfgFirstZero).saveFailure = false
    ∧ (fprintsDictFromMol envNoFiles molM cfgFirstZero).filesWritten = [] := by
  decide

/-- Claim C3 amended: for a molecule with `C` conformers, configured max
level `L ≥ 0` and conformer cap `first`, a successful run with persistence
enabled produces exactly `L + 1` output files, one per level `0..=L`, each
containing exactly `min(C, first)` fingerprints (all `C` when `first` is
negative) — provided at least one conformer is processed
(`min(C, first) ≥ 1`); when zero conformers are processed, no level files
are written (counterexample above). -/
theorem level_file_count (env : Env) (mol : Mol) (cfg : Config)
    (hsave : cfg.save = true) (hL : 0 ≤ cfg.maxIters)
    (hns : cacheSkip env mol cfg = false)
    (hok : ∀ conf ∈ mol.confs, env.engineRunOk conf = true)
    (hsv : ∀ p, env.saveOk p = true)
    (hn : 1 ≤ numProcessed mol.confs.length cfg.first) :
    ((fprintsDictFromMol env mol cfg).filesWritten.map Prod.fst
        = filenamesFor cfg mol.name)
    ∧ (fprintsDictFromMol env mol cfg).filesWritten.length
        = cfg.maxIters.toNat + 1
    ∧ (∀ w ∈ (fprintsDictFromMol env mol cfg).filesWritten,
        w.2.length = (if cfg.first < 0 then mol.confs.length
                      else min mol.confs.length cfg.first.toNat))
    ∧ (fprintsDictFromMol env mol cfg).fpFailure = false
    ∧ (fprintsDictFromMol env mol cfg).saveFailure = false := by
  have hc : mol.confs.length ≠ 0 := by
    have := numProcessed_le mol.confs.length cfg.first
    omega
  have hnz : numProcessed mol.confs.length cfg.first ≠ 0 := by omega
  have hr := run_save_success_eq env mol cfg hns hsave hok hc
  have hwl := writeLoop_all_ok env (filenamesFor cfg mol.name) hsv
      (fprintsDictOf env mol cfg (numProcessed mol.confs.length cfg.first))
  have hmap := dict_map_expected env mol cfg
      (numProcessed mol.confs.length cfg.first) hnz
  have hfw : (fprintsDictFromMol env mol cfg).filesWritten
      = expectedWrites env mol cfg (numProcessed mol.confs.length cfg.first) := by
    rw [hr]
    dsimp only
    rw [hwl]
    exact hmap
  have hsf : (fprintsDictFromMol env mol cfg).saveFailure = false := by
    rw [hr]
    dsimp only
    rw [hwl]
  have hff : (fprintsDictFromMol env mol cfg).fpFailure = false := by
    rw [hr]
  refine ⟨?_, ?_, ?_, hff, hsf⟩
  · rw [hfw]
    unfold expectedWrites filenamesFor
    rw [List.map_map]
    rfl
  · rw [hfw]
    unfold expectedWrites
    rw [List.length_map]
    unfold levelList
    rw [List.length_range]
    omega
  · intro w hw
    rw [hfw] at hw
    unfold expectedWrites at hw
    obtain ⟨i, hi, he⟩ := List.mem_map.mp hw
    rw [← he]
    dsimp only
    unfold levelFprints
    rw [List.length_map, List.length_range]
    unfold numProcessed
    rfl

/-- Witness for `level_file_count`: three conformers, cap `first = 2`,
levels 0 and 1 — two files of two fingerprints each. -/
theorem level_file_count_witness :
    (fprintsDictFromMol envNoFiles molM3 cfgFirstTwo).filesWritten.length = 2
    ∧ ∀ w ∈ (fprintsDictFromMol envNoFiles molM3 cfgFirstTwo).filesWritten,
        w.2.length = 2 := by
  have h := level_file_count envNoFiles molM3 cfgFirstTwo rfl (by decide)
      (by decide) (fun conf hconf => rfl) (fun p => rfl) (by decide)
  constructor
  · rw [h.2.1]
    rfl
  · intro w hw
    rw [h.2.2.1 w hw]
    decide

/-- Claim C4: if the engine raises on one of the processed conformers, the
generator aborts the molecule: the returned value is the empty failure
value and no output file is written at any level (and whenever the run was
not a cache skip, the fingerprinting-failure branch is the one taken). -/
theorem engine_failure_no_files (env : Env) (mol : Mol) (cfg : Config)
    (hfail : ∃ j, j < numProcessed mol.confs.length cfg.first
        ∧ env.engineRunOk (mol.confs.getD j 0) = false) :
    (fprintsDictFromMol env mol cfg).result = []
    ∧ (fprintsDictFromMol env mol cfg).filesWritten = []
    ∧ ((fprintsDictFromMol env mol cfg).skipped = false →
        (fprintsDictFromMol env mol cfg).fpFailure = true) := by
  by_cases hcs : cacheSkip env mol cfg = true
  · unfold fprintsDictFromMol
    dsimp only
    rw [hcs]
    exact ⟨rfl, rfl, fun h => Bool.noConfusion h⟩
  · have hcs' : cacheSkip env mol cfg = false := by simpa using hcs
    have hsome : (failIdx env mol
        (numProcessed mol.confs.length cfg.first)).isSome = true := by
      unfold failIdx
      rw [List.find?_isSome]
      obtain ⟨j, hj, hrun⟩ := hfail
      refine ⟨j, List.mem_range.mpr hj, ?_⟩
      simp only [Bool.not_eq_true']
      exact hrun
    obtain ⟨k, hk⟩ := Option.isSome_iff_exists.mp hsome
    unfold fprintsDictFromMol
    dsimp only
    rw [hcs']
    simp only [Bool.false_eq_true, if_false]
    rw [hk]
    exact ⟨rfl, rfl, fun _ => rfl⟩

/-- Witness for `engine_failure_no_files`: the engine fails on the only
conformer; nothing is returned and nothing is written. -/
theorem engine_failure_no_files_witness :
    (fprintsDictFromMol envEngineFails molM cfgTwoLevels).result = []
    ∧ (fprintsDictFromMol envEngineFails molM cfgTwoLevels).filesWritten = [] := by
  have h := engine_failure_no_files envEngineFails molM cfgTwoLevels
      ⟨0, by decide, rfl⟩
  exact ⟨h.1, h.2.1⟩

/-- Claim C5: after a failure-free main loop with persistence enabled, the
level files are written in increasing level order (`expectedWrites` lists
the levels in increasing order); the written files are exactly the longest
prefix of that list on which the store succeeds — so a failing write stops
all higher-level writes while the lower-level writes stay in place — and
the persistence-failure branch is taken iff some write fails. -/
theorem level_writes_prefix_order (env : Env) (mol : Mol) (cfg : Config)
    (hsave : cfg.save = true)
    (hns : cacheSkip env mol cfg = false)
    (hok : ∀ conf ∈ mol.confs, env.engineRunOk conf = true)
    (hn : 1 ≤ numProcessed mol.confs.length cfg.first) :
    ((fprintsDictFromMol env mol cfg).filesWritten
        = (expectedWrites env mol cfg
            (numProcessed mol.confs.length cfg.first)).takeWhile
              (fun w => env.saveOk w.1))
    ∧ ((fprintsDictFromMol env mol cfg).saveFailure
        = !(expectedWrites env mol cfg
            (numProcessed mol.confs.length cfg.first)).all
              (fun w => env.saveOk w.1))
    ∧ (∃ k, (fprintsDictFromMol env mol cfg).filesWritten
        = (expectedWrites env mol cfg
            (numProcessed mol.confs.length cfg.first)).take k) := by
  have hc : mol.confs.length ≠ 0 := by
    have := numProcessed_le mol.confs.length cfg.first
    omega
  have hnz : numProcessed mol.confs.length cfg.first ≠ 0 := by omega
  have hr := run_save_success_eq env mol cfg hns hsave hok hc
  have hwl := writeLoop_eq env (filenamesFor cfg mol.name)
      (fprintsDictOf env mol cfg (numProcessed mol.confs.length cfg.first))
  rw [dict_map_expected env mol cfg
      (numProcessed mol.confs.length cfg.first) hnz] at hwl
  have h1 : (fprintsDictFromMol env mol cfg).filesWritten
      = (expectedWrites env mol cfg
          (numProcessed mol.confs.length cfg.first)).takeWhile
            (fun w => env.saveOk w.1) := by
    rw [hr]
    dsimp only
    rw [hwl]
  have h2 : (fprintsDictFromMol env mol cfg).saveFailure
      = !(expectedWrites env mol cfg
          (numProcessed mol.confs.length cfg.first)).all
            (fun w => env.saveOk w.1) := by
    rw [hr]
    dsimp only
    rw [hwl]
  refine ⟨h1, h2, ?_⟩
  obtain ⟨k, hk⟩ := takeWhile_as_take (fun w => env.saveOk w.1)
      (expectedWrites env mol cfg (numProcessed mol.confs.length cfg.first))
  exact ⟨k, by rw [h1, hk]⟩

/-- Witness for `level_writes_prefix_order`: only the level-0 write
succeeds; exactly one file is written and the persistence-failure branch
is taken. -/
theorem level_writes_prefix_order_witness :
    (fprintsDictFromMol envLevel0Only molM cfgTwoLevels).filesWritten.length = 1
    ∧ (fprintsDictFromMol envLevel0Only molM cfgTwoLevels).saveFailure = true := by
  have h := level_writes_prefix_order envLevel0Only molM cfgTwoLevels rfl
      (by decide) (fun conf hconf => rfl) (by decide)
  constructor
  · rw [h.1]
    decide
  · rw [h.2.1]
    decide

/-- Filesystem whose single directory holds one hidden entry. -/
def fsHidden : FileSys := ⟨fun _ => true, fun _ => [".hidden"]⟩

/-- Filesystem where `indir` is a directory with two visible entries. -/
def fsTwoFiles : FileSys := ⟨fun d => d == "indir", fun _ => ["a.sdf", "b.sdf"]⟩

/-- Claim C7 counterexample: a single directory argument whose directory
holds one entry named `.hidden` resolves to the empty input set — `glob`'s
`*` pattern skips names beginning with a period, so the effective input
set is not "exactly those N directory entries". -/
theorem dir_expansion_hidden_cex :
    fsHidden.isDir "indir" = true
    ∧ (fsHidden.entries "indir").length = 1
    ∧ resolveInputs fsHidden ["indir"] = [] := by
  decide

/-- Claim C7 amended: if exactly one input path is given and it is a
directory, the effective input set is that directory's non-hidden entries
(names not beginning with a period, as matched by `glob`'s `*`), each
prefixed by the directory path, non-recursively; otherwise the input list
is used literally. -/
theorem input_resolution (fs : FileSys) (files : List String) :
    (∀ d, files = [d] → fs.isDir d = true →
        resolveInputs fs files
          = ((fs.entries d).filter (fun e => !(hiddenEntry e))).map
              (fun e => d ++ "/" ++ e))
    ∧ (∀ d, files = [d] → fs.isDir d = false → resolveInputs fs files = files)
    ∧ (files.length ≠ 1 → resolveInputs fs files = files) := by
  refine ⟨?_, ?_, ?_⟩
  · intro d hd hdir
    subst hd
    have hmatch : resolveInputs fs [d]
        = if fs.isDir d = true then globStar fs d else [d] := rfl
    rw [hmatch, hdir, if_pos rfl]
    rfl
  · intro d hd hdir
    subst hd
    have hmatch : resolveInputs fs [d]
        = if fs.isDir d = true then globStar fs d else [d] := rfl
    rw [hmatch, hdir, if_neg Bool.false_ne_true]
  · intro hne
    cases files with
    | nil => rfl
    | cons a t =>
      cases t with
      | nil => exact absurd rfl hne
      | cons b r => rfl

/-- Witness for `input_resolution`: a directory of two visible files
expands to exactly those two path-prefixed entries. -/
theorem input_resolution_witness :
    resolveInputs fsTwoFiles ["indir"] = ["indir/a.sdf", "indir/b.sdf"] := by
  have h := (input_resolution fsTwoFiles ["indir"]).1 "indir" rfl (by decide)
  rw [h]
  decide

/-- Claim C8: every fingerprint in the returned level-keyed collection for
conformer ordinal `j` of molecule `M` carries the name `"M_j"`, whatever
the level, the engine payload, or the representation flags. -/
theorem fingerprint_names (env : Env) (mol : Mol) (cfg : Config) (i : Nat)
    (fps : List Fprint)
    (hmem : (i, fps) ∈ (fprintsDictFromMol env mol cfg).result)
    (j : Nat) (hj : j < fps.length) :
    (fps.get ⟨j, hj⟩).name = mol.name ++ "_" ++ toString j := by
  have he := result_mem_eq env mol cfg i fps hmem
  subst he
  unfold levelFprints at hj ⊢
  rw [List.get_eq_getElem, List.getElem_map]
  dsimp only
  rw [List.getElem_range]

/-- Witness for `fingerprint_names`: the single level-0 fingerprint of the
one-conformer molecule `m` is named `m_0`. -/
theorem fingerprint_names_witness :
    (([⟨30, "m_0"⟩] : List Fprint).get ⟨0, Nat.zero_lt_one⟩).name = "m_0" := by
  have h := fingerprint_names envNoFiles molM cfgNoSave 0
      [⟨30, "m_0"⟩] (by decide) 0 Nat.zero_lt_one
  rw [h]
  decide

end E3FP
